import Mathlib

/-!
Verification of the matrix exhibit pipeline (`generate-exhibits.py`) and the
connectivity checker (`check-subnetwork-connectedness.py`).

Modelling conventions:
- numpy 2D arrays are `Mat`: an explicit shape together with an entry
  function; rank-3 tensors are `Tensor3` likewise.  Slicing and transposition
  are index reshuffles, exactly as numpy views.
- Python floats are real numbers; the escape radius, which may be `inf`,
  lives in `ENNReal` where division of a nonzero value by zero yields `⊤`,
  matching IEEE `x / 0.0 = inf` for `x > 0`.
- `scipy.io.loadmat` and `numpy.linalg.svdvals` are external collaborators:
  the loaded container and the singular-value spectrum are parameters.
- The filesystem is the list of existing file names; a run returns its
  outcome (return code, or an uncaught Python exception), the final
  filesystem, the list of written records, the per-write statuses and the
  warning/error log.
-/

/-- A numpy 2D array: shape plus entry function (row, column). -/
structure Mat where
  rows : ℕ
  cols : ℕ
  entry : ℕ → ℕ → ℝ

/-- A numpy rank-3 tensor: shape `(d0, d1, d2)` plus entry function. -/
structure Tensor3 where
  d0 : ℕ
  d1 : ℕ
  d2 : ℕ
  entry : ℕ → ℕ → ℕ → ℝ

/-- A value stored in the loaded MATLAB container. -/
inductive PyObj where
  | nd2 (m : Mat)
  | nd3 (t : Tensor3)
  | ndOther (ndim : ℕ)
  | notArray (tyName : String)

/-- The dictionary returned by `scipy.io.loadmat`. -/
abbrev Container := List (String × PyObj)

/-- An uncaught Python exception. -/
inductive PyErr where
  | keyError (name : String)
  | typeError
  | valueError (mode : String)
deriving DecidableEq

/-- A log message at warning level or above (info messages are not modelled). -/
inductive LogMsg where
  | error
  | warning
deriving DecidableEq

/-- A JSON value as produced by `json.dump` (numbers, `Infinity`, arrays). -/
inductive JVal where
  | num (x : ℝ)
  | inum (x : ENNReal)
  | nat (n : ℕ)
  | arr (xs : List JVal)

/-- A serialized JSON object: keys with values, in insertion order. -/
abbrev Rec := List (String × JVal)

/-- Default matrix used only as a `getD` fallback. -/
def matZero : Mat := ⟨0, 0, fun _ _ => 0⟩

/-- numpy `mat.T` on a 2D array. -/
def Mat.transpose (m : Mat) : Mat := ⟨m.cols, m.rows, fun i j => m.entry j i⟩

/-- numpy `np.clip(x, lo, hi)` applied elementwise: `min (max x lo) hi`. -/
noncomputable def Mat.clip (m : Mat) (lo hi : ℝ) : Mat :=
  ⟨m.rows, m.cols, fun i j => min (max (m.entry i j) lo) hi⟩

/-- numpy `np.abs` applied elementwise. -/
noncomputable def Mat.absval (m : Mat) : Mat :=
  ⟨m.rows, m.cols, fun i j => |m.entry i j|⟩

/-- In-place scalar division `mat /= s`, elementwise. -/
noncomputable def Mat.divScalar (m : Mat) (s : ℝ) : Mat :=
  ⟨m.rows, m.cols, fun i j => m.entry i j / s⟩

/-- numpy `a + b` on matrices of equal shape (shape taken from the left). -/
noncomputable def Mat.add (a b : Mat) : Mat :=
  ⟨a.rows, a.cols, fun i j => a.entry i j + b.entry i j⟩

/-- The flat list of a matrix's entries, row by row. -/
def Mat.flat (m : Mat) : List ℝ :=
  (List.range m.rows).flatMap fun i => (List.range m.cols).map fun j => m.entry i j

/-- numpy `np.min` over a 1D array (the empty case never arises). -/
noncomputable def npMin (l : List ℝ) : ℝ :=
  match l with
  | [] => 0
  | x :: xs => xs.foldl min x

/-- numpy `np.max` over a 1D array (the empty case never arises). -/
noncomputable def npMax (l : List ℝ) : ℝ :=
  match l with
  | [] => 0
  | x :: xs => xs.foldl max x

/-- numpy `np.max(np.abs(mat))`: maximum absolute entry. -/
noncomputable def npAbsMax (m : Mat) : ℝ := npMax (m.absval.flat)

/-- `numpy.linalg.norm(mat, ord=1)`: maximum absolute column sum. -/
noncomputable def norm1 (m : Mat) : ℝ :=
  npMax ((List.range m.cols).map fun j =>
    ((List.range m.rows).map fun i => |m.entry i j|).sum)

/-- `numpy.linalg.norm(mat, ord=np.inf)`: maximum absolute row sum. -/
noncomputable def normInf (m : Mat) : ℝ :=
  npMax ((List.range m.rows).map fun i =>
    ((List.range m.cols).map fun j => |m.entry i j|).sum)

/-- `numpy.linalg.norm(mat, ord="fro")`: Frobenius norm. -/
noncomputable def normFro (m : Mat) : ℝ :=
  Real.sqrt ((m.flat.map fun x => x ^ 2).sum)

/-- `numpy.linalg.norm(mat, ord=2)` via the collaborator spectrum `svd`:
largest singular value. -/
noncomputable def norm2 (svd : Mat → List ℝ) (m : Mat) : ℝ := npMax (svd m)

/-- `numpy.linalg.norm(mat, ord="nuc")` via the collaborator spectrum `svd`:
sum of the singular values. -/
noncomputable def normNuc (svd : Mat → List ℝ) (m : Mat) : ℝ := (svd m).sum

/-- Default rendering viewport corner `DEFAULT_UPPER_LEFT`. -/
noncomputable def DEFAULT_UPPER_LEFT : ℝ × ℝ := (-10.25, 4.25)

/-- Default rendering viewport corner `DEFAULT_LOWER_RIGHT`. -/
noncomputable def DEFAULT_LOWER_RIGHT : ℝ × ℝ := (7.5, -7.5)

/-- The `result` list built inside `serde_matrix_format`: it iterates the
rows of `mat.T` (that is, the columns of `mat`) and emits each entry as a
`[real, imag]` pair with a zero imaginary part. -/
noncomputable def serdeFlat (mat : Mat) : List JVal :=
  (List.range mat.transpose.rows).flatMap fun i =>
    (List.range mat.transpose.cols).map fun j =>
      JVal.arr [JVal.num (mat.transpose.entry i j), JVal.num 0]

/-- Source `serde_matrix_format`: the value of the `mat` key, namely
`[result, rows, cols]` with the original shape of `mat`. -/
noncomputable def serde_matrix_format (mat : Mat) : List JVal :=
  [JVal.arr (serdeFlat mat), JVal.nat mat.rows, JVal.nat mat.cols]

/-- Source `estimate_escape_radius`: `2.0 * np.sqrt(n) / np.min(sigma) ** 2`
with `n = mat.shape[0]` and `sigma = svdvals(mat)` from the collaborator.
A positive numerator divided by zero is `inf`, hence the `ENNReal` codomain. -/
noncomputable def estimate_escape_radius (svd : Mat → List ℝ) (mat : Mat) : ENNReal :=
  ENNReal.ofReal (2 * Real.sqrt mat.rows) / ENNReal.ofReal (npMin (svd mat) ^ 2)

/-- The JSON object written by `dump`: the four keys in insertion order. -/
noncomputable def dumpRecord (mat : Mat) (escape_radius : ENNReal)
    (upper_left lower_right : ℝ × ℝ) : Rec :=
  [("mat", JVal.arr (serde_matrix_format mat)),
   ("escape_radius", JVal.inum escape_radius),
   ("upper_left", JVal.arr [JVal.num upper_left.1, JVal.num upper_left.2]),
   ("lower_right", JVal.arr [JVal.num lower_right.1, JVal.num lower_right.2])]

/-- Result of one `dump` call: return status, filesystem afterwards, records
written and log messages. -/
structure DumpResult where
  status : ℕ
  fs : List String
  writes : List (String × Rec)
  logs : List LogMsg

/-- Source `dump`: refuse an existing target unless `overwrite`; otherwise
convert a `None` ceiling to `np.inf`, cap the estimated escape radius with
`min` and write the four-key record. -/
noncomputable def dump (svd : Mat → List ℝ) (fs : List String) (outfile : String)
    (mat : Mat) (upper_left lower_right : ℝ × ℝ)
    (max_escape_radius : Option ℝ) (overwrite : Bool) : DumpResult :=
  if !overwrite && outfile ∈ fs then
    ⟨1, fs, [], [LogMsg.error]⟩
  else
    let mer : ENNReal :=
      match max_escape_radius with
      | none => ⊤
      | some r => ENNReal.ofReal r
    let escape_radius := estimate_escape_radius svd mat
    let exhibit_escape_radius := min escape_radius mer
    ⟨0, if outfile ∈ fs then fs else fs ++ [outfile],
     [(outfile, dumpRecord mat exhibit_escape_radius upper_left lower_right)], []⟩

/-- Slice `mat[i]` of a rank-3 tensor: a view of the plane at first index `i`. -/
def sliceFirst (t : Tensor3) (i : ℕ) : Mat := ⟨t.d1, t.d2, fun a b => t.entry i a b⟩

/-- Slice `mat[..., i]` of a rank-3 tensor: a view of the plane at last
index `i`. -/
def sliceLast (t : Tensor3) (i : ℕ) : Mat := ⟨t.d0, t.d1, fun a b => t.entry a b i⟩

/-- Source lines 185-189 of `generate-exhibits.py`: the rank-3 case of
extraction.  With `transpose` the last axis indexes the matrices
(`mat[..., i] for i in range(mat.shape[-1])`), otherwise the first axis does
(`mat[i] for i in range(mat.shape[0])`). -/
def readNd3Slices (t : Tensor3) (transpose : Bool) : List Mat :=
  if transpose then (List.range t.d2).map (sliceLast t)
  else (List.range t.d0).map (sliceFirst t)

/-- State threaded through the extraction loop of `convert_matlab`. -/
structure ReadState where
  ret : ℕ
  matrices : List Mat
  logs : List LogMsg

/-- The extraction loop of `convert_matlab` (lines 170-196).  `result[name]`
on a missing key raises `KeyError`; a non-ndarray value or an unsupported
rank logs an error, sets `ret = 1` and continues; rank 2 appends the matrix
(transposed in place when requested); rank 3 appends its slices. -/
def readMatrices (container : Container) (transpose : Bool) :
    List String → ReadState → Except PyErr ReadState
  | [], s => .ok s
  | name :: rest, s =>
    match container.lookup name with
    | none => .error (PyErr.keyError name)
    | some (PyObj.notArray _) =>
        readMatrices container transpose rest
          ⟨1, s.matrices, s.logs ++ [LogMsg.error]⟩
    | some (PyObj.nd2 m) =>
        readMatrices container transpose rest
          ⟨s.ret, s.matrices ++ [if transpose then m.transpose else m], s.logs⟩
    | some (PyObj.nd3 t) =>
        readMatrices container transpose rest
          ⟨s.ret, s.matrices ++ readNd3Slices t transpose, s.logs⟩
    | some (PyObj.ndOther _) =>
        readMatrices container transpose rest
          ⟨1, s.matrices, s.logs ++ [LogMsg.error]⟩

/-- The extraction loop of `check_connected` (lines 49-64): same shape as the
exhibit pipeline's loop, but any rank other than 3 is rejected and the slices
are always taken along the last axis (`mat[..., i]`). -/
def readMatricesConnected (container : Container) :
    List String → ℕ × List Mat → Except PyErr (ℕ × List Mat)
  | [], s => .ok s
  | name :: rest, s =>
    match container.lookup name with
    | none => .error (PyErr.keyError name)
    | some (PyObj.notArray _) =>
        readMatricesConnected container rest (1, s.2)
    | some (PyObj.nd3 t) =>
        readMatricesConnected container rest
          (s.1, s.2 ++ (List.range t.d2).map (sliceLast t))
    | some _ =>
        readMatricesConnected container rest (1, s.2)

/-- Source `check_connected`: existence check, extraction, then a log-only
metrics loop over the external graph collaborator (which neither changes the
return value nor writes anything), returning the accumulated status. -/
def check_connected (fs : List String) (container : Container) (filename : String)
    (mat_variable_names : Option (List String)) : Except PyErr ℕ :=
  if filename ∈ fs then
    match readMatricesConnected container (mat_variable_names.getD []) (0, []) with
    | .error e => .error e
    | .ok s => .ok s.1
  else .ok 1

/-- The clip stage (line 211-212): `np.clip` allocates a fresh array when
configured, otherwise `mat_i` still aliases the source. -/
noncomputable def clipStep (clip : Option (ℝ × ℝ)) (mat : Mat) : Mat :=
  match clip with
  | none => mat
  | some c => mat.clip c.1 c.2

/-- The absolute-value stage (line 214-215): `np.abs` allocates a fresh
array when requested. -/
noncomputable def absStep (absolute : Bool) (m : Mat) : Mat :=
  if absolute then m.absval else m

/-- The normalization dispatch (lines 218-231): the scalar norm selected by
the mode string, or `none` for an unrecognized mode. -/
noncomputable def normOf (svd : Mat → List ℝ) (s : String) (m : Mat) : Option ℝ :=
  if s = "1" then some (norm1 m)
  else if s = "2" then some (norm2 svd m)
  else if s = "inf" then some (normInf m)
  else if s = "fro" then some (normFro m)
  else if s = "nuc" then some (normNuc svd m)
  else if s = "max" then some (npAbsMax m)
  else none

/-- The per-matrix transformation chain of `convert_matlab` (lines 208-231):
clip, absolute value, then normalization dispatched on the mode string, where
an unknown mode raises `ValueError`.  The normalization `mat_i /= norm` is an
in-place division: when neither clip nor absolute produced a fresh array,
`mat_i` still aliases the source matrix and the source is mutated.  The
result is the pair `(mat_i, source-after-the-call)`. -/
noncomputable def transformStep (svd : Mat → List ℝ) (clip : Option (ℝ × ℝ))
    (absolute : Bool) (normalize : Option String) (mat : Mat) :
    Except PyErr (Mat × Mat) :=
  let m2 := absStep absolute (clipStep clip mat)
  match normalize with
  | none => .ok (m2, mat)
  | some s =>
    match normOf svd s m2 with
    | none => .error (PyErr.valueError s)
    | some nrm =>
      let res := m2.divScalar nrm
      .ok (res, if clip.isNone && !absolute then res else mat)

/-- Python `f-string` formatting `i:0{width}`: the decimal digits of `i`,
left-padded with zeros to `width` characters. -/
def zeroPad (i width : ℕ) : String :=
  let s := toString i
  String.mk (List.replicate (width - s.length) '0') ++ s

/-- Accumulator of the write loop of `convert_matlab`. -/
structure LoopAcc where
  ret : ℕ
  fs : List String
  writes : List (String × Rec)
  statuses : List ℕ
  logs : List LogMsg
  matAvg : Option Mat

/-- The write loop of `convert_matlab` (lines 206-242): transform each matrix
in extraction order, accumulate the running average numerator, derive the
output path from the shared stem with the zero-padded index, call `dump` and
fold its status into the return value with bitwise or.  An uncaught exception
from the transformation chain stops the loop, preserving the effects so far.
Each `dump` status is also recorded in `statuses`. -/
noncomputable def convertLoop (svd : Mat → List ℝ) (clip : Option (ℝ × ℝ))
    (absolute : Bool) (normalize : Option String) (upper_left lower_right : ℝ × ℝ)
    (max_escape_radius : ℝ) (overwrite : Bool) (outStem : String) (width : ℕ) :
    List Mat → ℕ → LoopAcc → Option PyErr × LoopAcc
  | [], _, acc => (none, acc)
  | mat :: rest, i, acc =>
    match transformStep svd clip absolute normalize mat with
    | .error e => (some e, acc)
    | .ok (mat_i, _src) =>
      let matAvg := some (match acc.matAvg with
        | none => mat_i
        | some a => a.add mat_i)
      let path := outStem ++ "-" ++ zeroPad i width ++ ".json"
      let d := dump svd acc.fs path mat_i upper_left lower_right
        (some max_escape_radius) overwrite
      convertLoop svd clip absolute normalize upper_left lower_right
        max_escape_radius overwrite outStem width rest (i + 1)
        ⟨acc.ret ||| d.status, d.fs, acc.writes ++ d.writes,
         acc.statuses ++ [d.status], acc.logs ++ d.logs, matAvg⟩

/-- Result of one `convert_matlab` run: outcome (return code or uncaught
exception), filesystem, written records, per-write statuses and log. -/
structure RunResult where
  outcome : Except PyErr ℕ
  fs : List String
  writes : List (String × Rec)
  statuses : List ℕ
  logs : List LogMsg

/-- Source `convert_matlab`: input-existence check, defaulting of arguments,
bounding-box validation, ceiling validation (where comparing a `None` ceiling
against `0.0` raises `TypeError`), extraction, the empty-collection warning
path, the write loop, and the optional averaged exhibit.  The container is
the collaborator result of `scipy.io.loadmat`; output-path arithmetic other
than the suffix is abstracted into the stem strings. -/
noncomputable def convert_matlab (svd : Mat → List ℝ) (fs : List String)
    (container : Container) (filename : String) (outfile : Option String)
    (mat_variable_names : Option (List String))
    (upper_left lower_right : Option (ℝ × ℝ)) (max_escape_radius : Option ℝ)
    (clip : Option (ℝ × ℝ)) (transpose : Bool) (normalize : Option String)
    (absolute : Bool) (include_average : Bool) (overwrite : Bool) : RunResult :=
  if filename ∉ fs then ⟨.ok 1, fs, [], [], [LogMsg.error]⟩
  else
    let outStem := outfile.getD filename
    let names := mat_variable_names.getD []
    let ul := upper_left.getD DEFAULT_UPPER_LEFT
    let lr := lower_right.getD DEFAULT_LOWER_RIGHT
    if ul.1 > lr.1 then ⟨.ok 1, fs, [], [], [LogMsg.error]⟩
    else if ul.2 < lr.2 then ⟨.ok 1, fs, [], [], [LogMsg.error]⟩
    else
      match max_escape_radius with
      | none => ⟨.error PyErr.typeError, fs, [], [], []⟩
      | some mer =>
        if mer ≤ 0 then ⟨.ok 1, fs, [], [], [LogMsg.error]⟩
        else
          match readMatrices container transpose names ⟨0, [], []⟩ with
          | .error e => ⟨.error e, fs, [], [], []⟩
          | .ok s =>
            if s.matrices.isEmpty then
              ⟨.ok s.ret, fs, [], [], s.logs ++ [LogMsg.warning]⟩
            else
              let width := (toString s.matrices.length).length
              match convertLoop svd clip absolute normalize ul lr mer overwrite
                outStem width s.matrices 0 ⟨s.ret, fs, [], [], s.logs, none⟩ with
              | (some e, acc) => ⟨.error e, acc.fs, acc.writes, acc.statuses, acc.logs⟩
              | (none, acc) =>
                if include_average then
                  let n : ℝ := s.matrices.length
                  let avg := (acc.matAvg.getD matZero).divScalar n
                  let d := dump svd acc.fs (outStem ++ "-avg.json") avg ul lr
                    (some mer) overwrite
                  ⟨.ok (acc.ret ||| d.status), d.fs, acc.writes ++ d.writes,
                   acc.statuses ++ [d.status], acc.logs ++ d.logs⟩
                else
                  ⟨.ok acc.ret, acc.fs, acc.writes, acc.statuses, acc.logs⟩

/-- Modelled from the spec, claim C1 wording: the slices of a rank-3 tensor
taken along the last axis, in index order. -/
def specSlicesLastAxis (t : Tensor3) : List Mat := (List.range t.d2).map (sliceLast t)

/-- Modelled from the spec, claim C1 wording: the slices of a rank-3 tensor
taken along the first axis, in index order. -/
def specSlicesFirstAxis (t : Tensor3) : List Mat := (List.range t.d0).map (sliceFirst t)

/-- One present variable's contribution to the exhibit extraction. -/
def extractedOfObj (transpose : Bool) : PyObj → List Mat
  | PyObj.nd2 m => [if transpose then m.transpose else m]
  | PyObj.nd3 t => readNd3Slices t transpose
  | _ => []

/-- Whether a present variable is rejected by the exhibit extraction. -/
def badObj : PyObj → Bool
  | PyObj.nd2 _ => false
  | PyObj.nd3 _ => false
  | _ => true

/-- One present variable's contribution to the checker extraction. -/
def extractedOfObjConnected : PyObj → List Mat
  | PyObj.nd3 t => (List.range t.d2).map (sliceLast t)
  | _ => []

/-- Whether a present variable is rejected by the checker extraction. -/
def badObjConnected : PyObj → Bool
  | PyObj.nd3 _ => false
  | _ => true

/-- Bitwise or of a list of statuses. -/
def orList (l : List ℕ) : ℕ := l.foldl (fun a b => a ||| b) 0

/-- The normalization modes recognized by the transformation chain. -/
def validMode (m : String) : Bool :=
  m = "1" || m = "2" || m = "inf" || m = "fro" || m = "nuc" || m = "max"

/-- The `(rows, cols)` shape stored in a serialized record's `mat` field. -/
def recMatShape (r : Rec) : Option (ℕ × ℕ) :=
  match r.lookup ("mat") with
  | some (JVal.arr [_, JVal.nat a, JVal.nat b]) => some (a, b)
  | _ => none

lemma getD_map_range {α : Type} (f : ℕ → α) (d : α) {n i : ℕ} (h : i < n) :
    ((List.range n).map f).getD i d = f i := by
  rw [List.getD_eq_getElem?_getD]
  simp [List.getElem?_map, List.getElem?_range, h]

lemma flatMapRange_length {α : Type} (f : ℕ → ℕ → α) (c r : ℕ) :
    ((List.range c).flatMap fun j => (List.range r).map (f j)).length = c * r := by
  induction c with
  | zero => simp
  | succ n ih =>
      rw [List.range_succ]
      simp [ih]
      ring

lemma flatMapRange_getD {α : Type} (f : ℕ → ℕ → α) (d : α) {c r i j : ℕ}
    (hj : j < c) (hi : i < r) :
    ((List.range c).flatMap fun j => (List.range r).map (f j)).getD (j * r + i) d
      = f j i := by
  induction c with
  | zero => omega
  | succ n ih =>
      rw [List.range_succ]
      rcases Nat.lt_succ_iff_lt_or_eq.mp hj with h | h
      · rw [List.flatMap_append, List.getD_append]
        · exact ih h
        · rw [flatMapRange_length]
          calc j * r + i < j * r + r := by omega
            _ ≤ n * r := by nlinarith
      · subst h
        rw [List.flatMap_append, List.getD_append_right]
        · rw [flatMapRange_length]
          simp [List.getElem?_range, hi]
        · rw [flatMapRange_length]; omega

lemma readMatrices_ok (container : Container) (transpose : Bool) :
    ∀ (names : List String) (s : ReadState),
      (∀ n ∈ names, (container.lookup n).isSome) →
      ∃ logs, readMatrices container transpose names s = .ok
        ⟨(if names.any (fun n => badObj ((container.lookup n).getD (PyObj.ndOther 0)))
            then 1 else s.ret),
         s.matrices ++ names.flatMap
           (fun n => extractedOfObj transpose ((container.lookup n).getD (PyObj.ndOther 0))),
         logs⟩ := by
  intro names
  induction names with
  | nil => exact fun s _ => ⟨s.logs, by simp [readMatrices]⟩
  | cons name rest ih =>
      intro s h
      obtain ⟨obj, hobj⟩ := Option.isSome_iff_exists.mp (h name (List.mem_cons_self _ _))
      have hrest : ∀ n ∈ rest, (container.lookup n).isSome :=
        fun n hn => h n (List.mem_cons_of_mem _ hn)
      cases obj with
      | nd2 m =>
          obtain ⟨logs, hl⟩ :=
            ih ⟨s.ret, s.matrices ++ [if transpose then m.transpose else m], s.logs⟩ hrest
          refine ⟨logs, ?_⟩
          simp only [readMatrices, hobj, hl]
          simp [hobj, extractedOfObj, badObj]
      | nd3 t =>
          obtain ⟨logs, hl⟩ :=
            ih ⟨s.ret, s.matrices ++ readNd3Slices t transpose, s.logs⟩ hrest
          refine ⟨logs, ?_⟩
          simp only [readMatrices, hobj, hl]
          simp [hobj, extractedOfObj, badObj]
      | ndOther k =>
          obtain ⟨logs, hl⟩ :=
            ih ⟨1, s.matrices, s.logs ++ [LogMsg.error]⟩ hrest
          refine ⟨logs, ?_⟩
          simp only [readMatrices, hobj, hl]
          simp [hobj, extractedOfObj, badObj, ite_self]
      | notArray ty =>
          obtain ⟨logs, hl⟩ :=
            ih ⟨1, s.matrices, s.logs ++ [LogMsg.error]⟩ hrest
          refine ⟨logs, ?_⟩
          simp only [readMatrices, hobj, hl]
          simp [hobj, extractedOfObj, badObj, ite_self]

lemma readMatricesConnected_ok (container : Container) :
    ∀ (names : List String) (s : ℕ × List Mat),
      (∀ n ∈ names, (container.lookup n).isSome) →
      readMatricesConnected container names s = .ok
        ((if names.any (fun n => badObjConnected ((container.lookup n).getD (PyObj.ndOther 0)))
            then 1 else s.1),
         s.2 ++ names.flatMap
           (fun n => extractedOfObjConnected ((container.lookup n).getD (PyObj.ndOther 0)))) := by
  intro names
  induction names with
  | nil => exact fun s _ => by simp [readMatricesConnected]
  | cons name rest ih =>
      intro s h
      obtain ⟨obj, hobj⟩ := Option.isSome_iff_exists.mp (h name (List.mem_cons_self _ _))
      have hrest : ∀ n ∈ rest, (container.lookup n).isSome :=
        fun n hn => h n (List.mem_cons_of_mem _ hn)
      cases obj with
      | nd2 m =>
          have hl := ih (1, s.2) hrest
          simp only [readMatricesConnected, hobj, hl]
          simp [hobj, extractedOfObjConnected, badObjConnected, ite_self]
      | nd3 t =>
          have hl := ih (s.1, s.2 ++ (List.range t.d2).map (sliceLast t)) hrest
          simp only [readMatricesConnected, hobj, hl]
          simp [hobj, extractedOfObjConnected, badObjConnected]
      | ndOther k =>
          have hl := ih (1, s.2) hrest
          simp only [readMatricesConnected, hobj, hl]
          simp [hobj, extractedOfObjConnected, badObjConnected, ite_self]
      | notArray ty =>
          have hl := ih (1, s.2) hrest
          simp only [readMatricesConnected, hobj, hl]
          simp [hobj, extractedOfObjConnected, badObjConnected, ite_self]

lemma normOf_none (svd : Mat → List ℝ) (m : String) (x : Mat)
    (h : validMode m = false) : normOf svd m x = none := by
  simp only [validMode, Bool.or_eq_false_iff, decide_eq_false_iff_not] at h
  obtain ⟨⟨⟨⟨⟨h1, h2⟩, h3⟩, h4⟩, h5⟩, h6⟩ := h
  simp [normOf, h1, h2, h3, h4, h5, h6]

lemma transformStep_valid (svd : Mat → List ℝ) (clip : Option (ℝ × ℝ))
    (absolute : Bool) (m : String) (mat : Mat) (h : validMode m = true) :
    ∃ p, transformStep svd clip absolute (some m) mat = .ok p := by
  simp only [validMode, Bool.or_eq_true, decide_eq_true_eq] at h
  rcases h with ((((h | h) | h) | h) | h) | h <;> subst h <;> exact ⟨_, rfl⟩

lemma foldl_lor (l : List ℕ) (a : ℕ) :
    l.foldl (fun x y => x ||| y) a = a ||| orList l := by
  induction l generalizing a with
  | nil => simp [orList]
  | cons b t ih =>
      have hb : orList (b :: t) = b ||| orList t := by
        simp only [orList, List.foldl_cons, Nat.zero_or]
        exact ih b
      simp only [List.foldl_cons]
      rw [ih (a ||| b), hb, Nat.lor_assoc]

lemma orList_cons (a : ℕ) (l : List ℕ) : orList (a :: l) = a ||| orList l := by
  simp only [orList, List.foldl_cons, Nat.zero_or]
  exact foldl_lor l a

lemma orList_append (l1 l2 : List ℕ) : orList (l1 ++ l2) = orList l1 ||| orList l2 := by
  simp only [orList, List.foldl_append]
  exact foldl_lor l2 (l1.foldl (fun x y => x ||| y) 0)

lemma convertLoop_ok (svd : Mat → List ℝ) (clip : Option (ℝ × ℝ)) (absolute : Bool)
    (normalize : Option String) (ul lr : ℝ × ℝ) (mer : ℝ) (ow : Bool)
    (stem : String) (width : ℕ)
    (hmode : normalize = none ∨ ∃ m, normalize = some m ∧ validMode m = true) :
    ∀ (mats : List Mat) (i : ℕ) (acc : LoopAcc),
      ∃ acc' new,
        convertLoop svd clip absolute normalize ul lr mer ow stem width mats i acc
          = (none, acc') ∧
        acc'.statuses = acc.statuses ++ new ∧
        new.length = mats.length ∧
        acc'.ret = acc.ret ||| orList new := by
  intro mats
  induction mats with
  | nil =>
      intro i acc
      exact ⟨acc, [], by simp [convertLoop], by simp, rfl, by simp [orList]⟩
  | cons mat rest ih =>
      intro i acc
      obtain ⟨⟨mat_i, src⟩, hp⟩ :
          ∃ p, transformStep svd clip absolute normalize mat = .ok p := by
        rcases hmode with h | ⟨m, hm, hv⟩
        · subst h
          exact ⟨_, rfl⟩
        · rw [hm]
          exact transformStep_valid svd clip absolute m mat hv
      obtain ⟨acc', new, hloop, hst, hlen, hret⟩ := ih (i + 1)
        ⟨acc.ret ||| (dump svd acc.fs (stem ++ "-" ++ zeroPad i width ++ ".json")
            mat_i ul lr (some mer) ow).status,
         (dump svd acc.fs (stem ++ "-" ++ zeroPad i width ++ ".json")
            mat_i ul lr (some mer) ow).fs,
         acc.writes ++ (dump svd acc.fs (stem ++ "-" ++ zeroPad i width ++ ".json")
            mat_i ul lr (some mer) ow).writes,
         acc.statuses ++ [(dump svd acc.fs (stem ++ "-" ++ zeroPad i width ++ ".json")
            mat_i ul lr (some mer) ow).status],
         acc.logs ++ (dump svd acc.fs (stem ++ "-" ++ zeroPad i width ++ ".json")
            mat_i ul lr (some mer) ow).logs,
         some (match acc.matAvg with | none => mat_i | some a => a.add mat_i)⟩
      refine ⟨acc',
        (dump svd acc.fs (stem ++ "-" ++ zeroPad i width ++ ".json")
            mat_i ul lr (some mer) ow).status :: new, ?_, ?_, ?_, ?_⟩
      · simp only [convertLoop, hp]
        exact hloop
      · rw [hst]
        simp
      · simp [hlen]
      · rw [hret, orList_cons, Nat.lor_assoc]

/-- Claim C1, counterexample: for the rank-3 tensor of shape `(1, 2, 2)`,
extraction without transpose does not slice along the last axis (it yields
one matrix, not two), refuting the claim as stated. -/
theorem C1_counterexample :
    readNd3Slices ⟨1, 2, 2, fun _ _ _ => (0:ℝ)⟩ false
      ≠ specSlicesLastAxis ⟨1, 2, 2, fun _ _ _ => (0:ℝ)⟩ := by
  intro h
  have h2 := congrArg List.length h
  simp [readNd3Slices, specSlicesLastAxis] at h2

/-- Claim C1 (amended): when transpose is not requested the first axis of a
rank-3 tensor indexes the independent matrices, and when transpose is
requested the last axis does; the slices are appended in index order, and
slice `i` (resp. `j`) has the shape and entries of the corresponding plane
of the tensor. -/
theorem C1_amended (t : Tensor3) :
    readNd3Slices t false = specSlicesFirstAxis t ∧
    readNd3Slices t true = specSlicesLastAxis t ∧
    (readNd3Slices t false).length = t.d0 ∧
    (readNd3Slices t true).length = t.d2 ∧
    (∀ i, i < t.d0 →
      ((readNd3Slices t false).getD i matZero).rows = t.d1 ∧
      ((readNd3Slices t false).getD i matZero).cols = t.d2 ∧
      ∀ a b, ((readNd3Slices t false).getD i matZero).entry a b = t.entry i a b) ∧
    (∀ j, j < t.d2 →
      ((readNd3Slices t true).getD j matZero).rows = t.d0 ∧
      ((readNd3Slices t true).getD j matZero).cols = t.d1 ∧
      ∀ a b, ((readNd3Slices t true).getD j matZero).entry a b = t.entry a b j) := by
  refine ⟨rfl, rfl, by simp [readNd3Slices], by simp [readNd3Slices], ?_, ?_⟩
  · intro i hi
    have h : readNd3Slices t false = (List.range t.d0).map (sliceFirst t) := rfl
    rw [h, getD_map_range _ _ hi]
    exact ⟨rfl, rfl, fun a b => rfl⟩
  · intro j hj
    have h : readNd3Slices t true = (List.range t.d2).map (sliceLast t) := rfl
    rw [h, getD_map_range _ _ hj]
    exact ⟨rfl, rfl, fun a b => rfl⟩

/-- Witness for `C1_amended` at the concrete tensor of shape `(2, 1, 1)`
whose entries equal the first index: slice 1 holds the value 1. -/
theorem C1_amended_witness :
    1 < 2 ∧
    ((readNd3Slices ⟨2, 1, 1, fun i _ _ => (i:ℝ)⟩ false).getD 1 matZero).entry 0 0 = 1 := by
  refine ⟨by norm_num, ?_⟩
  have h := ((C1_amended ⟨2, 1, 1, fun i _ _ => (i:ℝ)⟩).2.2.2.2.1 1 (by norm_num)).2.2 0 0
  rw [h]
  norm_num

/-- Claim C2, counterexample: a requested variable name missing from the
container raises an uncaught `KeyError` (in both scripts) instead of being
recorded as a non-fatal error, refuting the claim as stated. -/
theorem C2_counterexample :
    readMatrices ([]) false (["x"]) ⟨0, [], []⟩ = .error (PyErr.keyError ("x")) ∧
    check_connected (["f.mat"]) ([]) ("f.mat") (some (["x"]))
      = .error (PyErr.keyError ("x")) := by
  exact ⟨rfl, rfl⟩

/-- Claim C2 (amended): for every requested name present in the container
whose value is not a recognized dense numeric tensor, both extraction loops
record a non-fatal error for that name and continue with the remaining
names, the accumulated return code becoming 1 exactly when some name was
rejected, and the surviving names' matrices are all collected in request
order; a missing name, however, raises an uncaught `KeyError`. -/
theorem C2_amended (container : Container) (names : List String) (transpose : Bool)
    (h : ∀ n ∈ names, (container.lookup n).isSome) :
    (∃ s, readMatrices container transpose names ⟨0, [], []⟩ = .ok s ∧
      s.ret = (if names.any
          (fun n => badObj ((container.lookup n).getD (PyObj.ndOther 0))) then 1 else 0) ∧
      s.matrices = names.flatMap
        (fun n => extractedOfObj transpose ((container.lookup n).getD (PyObj.ndOther 0)))) ∧
    (∃ p, readMatricesConnected container names (0, []) = .ok p ∧
      p.1 = (if names.any
          (fun n => badObjConnected ((container.lookup n).getD (PyObj.ndOther 0))) then 1 else 0) ∧
      p.2 = names.flatMap
        (fun n => extractedOfObjConnected ((container.lookup n).getD (PyObj.ndOther 0)))) := by
  constructor
  · obtain ⟨logs, hl⟩ := readMatrices_ok container transpose names ⟨0, [], []⟩ h
    exact ⟨_, hl, rfl, by simp⟩
  · have hl := readMatricesConnected_ok container names (0, []) h
    exact ⟨_, hl, rfl, by simp⟩

/-- Witness for `C2_amended`: a container holding one non-ndarray value and
one rank-3 tensor; extraction succeeds with return code 1 and still collects
the tensor's slice. -/
theorem C2_amended_witness :
    (∀ n ∈ (["bad", "good"] : List String),
      ((([("bad", PyObj.notArray ("dict")),
          ("good", PyObj.nd3 ⟨1, 1, 1, fun _ _ _ => (0:ℝ)⟩)] : Container).lookup n).isSome)) ∧
    (∃ s, readMatrices ([("bad", PyObj.notArray ("dict")),
          ("good", PyObj.nd3 ⟨1, 1, 1, fun _ _ _ => (0:ℝ)⟩)]) false (["bad", "good"])
        ⟨0, [], []⟩ = .ok s ∧ s.ret = 1 ∧ s.matrices.length = 1) := by
  have h : ∀ n ∈ (["bad", "good"] : List String),
      ((([("bad", PyObj.notArray ("dict")),
          ("good", PyObj.nd3 ⟨1, 1, 1, fun _ _ _ => (0:ℝ)⟩)] : Container).lookup n).isSome) := by
    intro n hn
    simp only [List.mem_cons, List.not_mem_nil, or_false] at hn
    rcases hn with h1 | h2 <;> subst_vars <;> rfl
  refine ⟨h, ?_⟩
  obtain ⟨⟨s, hs, hret, hmats⟩, _⟩ := C2_amended
    ([("bad", PyObj.notArray ("dict")),
      ("good", PyObj.nd3 ⟨1, 1, 1, fun _ _ _ => (0:ℝ)⟩)]) (["bad", "good"]) false h
  refine ⟨s, hs, ?_, ?_⟩
  · rw [hret]; rfl
  · rw [hmats]; rfl

/-- Claim C3, failing input: with an existing input file, valid bounds and no
configured ceiling, `convert_matlab` compares the `None` ceiling against
`0.0`, raising an uncaught `TypeError` instead of completing with the
uncapped estimate (the `dump` helper would have converted `None` to
`np.inf`, so the crash contradicts the clear intent). -/
theorem C3_none_ceiling_raises :
    convert_matlab (fun _ => [1]) (["data.mat"])
      ([("m", PyObj.nd3 ⟨1, 1, 1, fun _ _ _ => (0:ℝ)⟩)]) ("data.mat") (some ("out"))
      (some (["m"])) (some (0, 1)) (some (1, 0)) none none false none false false false
      = ⟨.error PyErr.typeError, ["data.mat"], [], [], []⟩ := by
  norm_num [convert_matlab]

/-- Claim C4: every record written by the serializer carries exactly the four
keys `mat`, `escape_radius`, `upper_left`, `lower_right` in insertion order;
the mat field is `[flat_pairs, rows, cols]` with the original shape, and the
flat list has `rows * cols` pairs, entry `(i, j)` of the matrix standing at
position `j * rows + i` (column-major) as a `[real, imaginary]` pair whose
imaginary part is 0. -/
theorem C4_record_layout (mat : Mat) (er : ENNReal) (ul lr : ℝ × ℝ) :
    (dumpRecord mat er ul lr).map Prod.fst
      = ["mat", "escape_radius", "upper_left", "lower_right"] ∧
    (dumpRecord mat er ul lr).lookup ("mat")
      = some (JVal.arr (serde_matrix_format mat)) ∧
    serde_matrix_format mat
      = [JVal.arr (serdeFlat mat), JVal.nat mat.rows, JVal.nat mat.cols] ∧
    (serdeFlat mat).length = mat.rows * mat.cols ∧
    ∀ i j, i < mat.rows → j < mat.cols →
      (serdeFlat mat).getD (j * mat.rows + i) (JVal.nat 0)
        = JVal.arr [JVal.num (mat.entry i j), JVal.num 0] := by
  have hflat : serdeFlat mat = (List.range mat.cols).flatMap
      (fun j => (List.range mat.rows).map
        (fun i => JVal.arr [JVal.num (mat.entry i j), JVal.num 0])) := rfl
  refine ⟨rfl, rfl, rfl, ?_, ?_⟩
  · rw [hflat, flatMapRange_length]
    ring
  · intro i j hi hj
    rw [hflat, flatMapRange_getD _ _ hj hi]

/-- Witness for `C4_record_layout` at the concrete 1-by-2 matrix with
entries `i + 2 j`: the pair at flat position 1 encodes entry `(0, 1)`. -/
theorem C4_record_layout_witness :
    0 < 1 ∧ 1 < 2 ∧
    (serdeFlat ⟨1, 2, fun i j => (i + 2 * j : ℝ)⟩).getD 1 (JVal.nat 0)
      = JVal.arr [JVal.num ((⟨1, 2, fun i j => (i + 2 * j : ℝ)⟩ : Mat).entry 0 1),
                  JVal.num 0] := by
  refine ⟨by norm_num, by norm_num, ?_⟩
  have h := (C4_record_layout ⟨1, 2, fun i j => (i + 2 * j : ℝ)⟩ 1 (0, 0) (0, 0)).2.2.2.2
    0 1 (by norm_num) (by norm_num)
  simpa using h

/-- Claim C5, counterexample: the (3,4,4) run does not produce files with
suffixes `00`, `01`, `02` — the pad width is the digit count of the total
count (here 1), giving suffixes `0`, `1`, `2`. -/
theorem C5_counterexample :
    (convert_matlab (fun _ => [1]) (["data.mat"])
        ([("matrices", PyObj.nd3 ⟨3, 4, 4, fun _ _ _ => (0:ℝ)⟩)]) ("data.mat")
        (some ("out")) (some (["matrices"])) none none (some 1)
        none false none false false false).writes.map Prod.fst
      ≠ ["out-00.json", "out-01.json", "out-02.json"] := by
  norm_num [convert_matlab, readMatrices, readNd3Slices,
    DEFAULT_UPPER_LEFT, DEFAULT_LOWER_RIGHT]
  simp +decide [convertLoop, transformStep, clipStep, absStep, dump, zeroPad,
    List.range_succ]

/-- Claim C5 (amended): output files carry a zero-padded numeric suffix whose
width is the number of decimal digits of the total count N; a rank-3 tensor
of shape (3,4,4) under the variable name `matrices`, no transforms and the
default bounding box (a positive ceiling must be configured, since an absent
ceiling crashes the run, see C3) produces exactly 3 output files with
suffixes `0`, `1`, `2`, each containing a matrix of shape `[4, 4]`; a tensor
yielding 12 matrices produces two-digit suffixes `00`..`11`. -/
theorem C5_amended (svd : Mat → List ℝ) (e f : ℕ → ℕ → ℕ → ℝ) :
    let run := convert_matlab svd (["data.mat"])
      ([("matrices", PyObj.nd3 ⟨3, 4, 4, e⟩)]) ("data.mat")
      (some ("out")) (some (["matrices"])) none none (some 1)
      none false none false false false
    let run12 := convert_matlab svd (["data.mat"])
      ([("m", PyObj.nd3 ⟨12, 1, 1, f⟩)]) ("data.mat")
      (some ("out")) (some (["m"])) none none (some 1)
      none false none false false false
    run.writes.map Prod.fst = ["out-0.json", "out-1.json", "out-2.json"] ∧
    run.outcome = .ok 0 ∧
    run.writes.map (fun w => recMatShape w.2)
      = [some (4, 4), some (4, 4), some (4, 4)] ∧
    run12.writes.map Prod.fst
      = ["out-00.json", "out-01.json", "out-02.json", "out-03.json", "out-04.json",
         "out-05.json", "out-06.json", "out-07.json", "out-08.json", "out-09.json",
         "out-10.json", "out-11.json"] := by
  refine ⟨?_, ?_, ?_, ?_⟩ <;>
    · norm_num [convert_matlab, readMatrices, readNd3Slices,
        DEFAULT_UPPER_LEFT, DEFAULT_LOWER_RIGHT]
      simp +decide [convertLoop, transformStep, clipStep, absStep, dump, zeroPad,
        recMatShape, dumpRecord, serde_matrix_format, sliceFirst, List.range_succ]

/-- Claim C6, counterexample: on the 1-by-1 matrix with entry 2, requesting
only normalization by the `max` norm divides the source array in place: the
source cell afterwards holds 1, not its original value 2, refuting the claim
that the source (the container slice) is always unchanged. -/
theorem C6_counterexample :
    transformStep (fun _ => [1]) none false (some ("max")) ⟨1, 1, fun _ _ => (2:ℝ)⟩
      = .ok ((⟨1, 1, fun _ _ => (2:ℝ)⟩ : Mat).divScalar 2,
             (⟨1, 1, fun _ _ => (2:ℝ)⟩ : Mat).divScalar 2) ∧
    ((⟨1, 1, fun _ _ => (2:ℝ)⟩ : Mat).divScalar 2).entry 0 0
      ≠ (⟨1, 1, fun _ _ => (2:ℝ)⟩ : Mat).entry 0 0 := by
  have hmax : npAbsMax ⟨1, 1, fun _ _ => (2:ℝ)⟩ = 2 := by
    simp [npAbsMax, npMax, Mat.absval, Mat.flat, List.range_succ]
  constructor
  · simp +decide [transformStep, clipStep, absStep, normOf, hmax]
  · simp [Mat.divScalar]

/-- Claim C6 (amended): the transformation chain leaves the source matrix
unchanged whenever clipping or the absolute value is configured, or when no
normalization is requested; but when normalization is the only
transformation, the division is performed in place and the source matrix
(the container slice) afterwards holds the normalized values. -/
theorem C6_amended (svd : Mat → List ℝ) (clip : Option (ℝ × ℝ)) (absolute : Bool)
    (normalize : Option String) (mat : Mat) :
    (clip.isSome = true ∨ absolute = true ∨ normalize = none →
      ∀ r src, transformStep svd clip absolute normalize mat = .ok (r, src) →
        src = mat) ∧
    (∀ m, normalize = some m → clip = none → absolute = false →
      ∀ r src, transformStep svd clip absolute normalize mat = .ok (r, src) →
        src = r) := by
  constructor
  · intro h r src hstep
    rcases hnorm : normalize with _ | m
    · rw [hnorm] at hstep
      simp only [transformStep] at hstep
      simp at hstep
      exact hstep.2.symm
    · rw [hnorm] at h hstep
      have hca : clip.isSome = true ∨ absolute = true := by
        rcases h with hc | ha | habs
        exacts [Or.inl hc, Or.inr ha, absurd habs (by simp)]
      simp only [transformStep] at hstep
      rcases hv : normOf svd m (absStep absolute (clipStep clip mat)) with _ | v
      · rw [hv] at hstep
        exact absurd hstep (by simp)
      · rw [hv] at hstep
        simp at hstep
        rw [← hstep.2]
        rcases hca with hc | ha
        · rcases clip with _ | c
          · simp at hc
          · simp
        · rw [ha]
          simp
  · intro m hn hc ha r src hstep
    subst hn
    subst hc
    subst ha
    simp only [transformStep] at hstep
    rcases hv : normOf svd m (absStep false (clipStep none mat)) with _ | v
    · rw [hv] at hstep
      exact absurd hstep (by simp)
    · rw [hv] at hstep
      simp at hstep
      rw [← hstep.1, ← hstep.2]

/-- Witness for `C6_amended`: with normalization by `max` as the only
transformation on the 1-by-1 matrix with entry 2, the source after the call
equals the result of the call. -/
theorem C6_amended_witness :
    (some ("max") : Option String) = some ("max") ∧
    (none : Option (ℝ × ℝ)) = none ∧
    (false = false) ∧
    ((⟨1, 1, fun _ _ => (2:ℝ)⟩ : Mat).divScalar
        (npAbsMax ⟨1, 1, fun _ _ => (2:ℝ)⟩))
      = ((⟨1, 1, fun _ _ => (2:ℝ)⟩ : Mat).divScalar
        (npAbsMax ⟨1, 1, fun _ _ => (2:ℝ)⟩)) := by
  refine ⟨rfl, rfl, rfl, ?_⟩
  exact (C6_amended (fun _ => [1]) none false (some ("max"))
    ⟨1, 1, fun _ _ => (2:ℝ)⟩).2 ("max") rfl rfl rfl _ _ (by
      simp +decide [transformStep, clipStep, absStep, normOf])

/-- Claim C7, counterexample: a run configured with the unknown normalization
mode `bogus` but extracting no matrices (empty variable list) returns 0 with
no fatal error and no abort, refuting the claim that every such run aborts
before any I/O. -/
theorem C7_counterexample :
    convert_matlab (fun _ => [1]) (["data.mat"]) ([]) ("data.mat") (some ("out"))
      (some ([])) (some (0, 1)) (some (1, 0)) (some 1) none false (some ("bogus"))
      false false false
      = ⟨.ok 0, ["data.mat"], [], [], [LogMsg.warning]⟩ := by
  norm_num [convert_matlab, readMatrices]

/-- Claim C7 (amended): provided at least one matrix is extracted, a run with
an unrecognized normalization mode raises an uncaught `ValueError` at the
first matrix's normalization step, after the input container is read but
before any output file is written — zero files, immediately rather than
per-matrix; a run that extracts no matrices never reaches the normalization
dispatch and returns without fatal error. -/
theorem C7_amended (svd : Mat → List ℝ) (fs : List String) (container : Container)
    (filename outStem : String) (names : List String) (ul lr : ℝ × ℝ) (mer : ℝ)
    (clip : Option (ℝ × ℝ)) (transpose : Bool) (m : String)
    (absolute include_average overwrite : Bool) (s : ReadState)
    (hf : filename ∈ fs) (hx : ¬ ul.1 > lr.1) (hy : ¬ ul.2 < lr.2) (hm : ¬ mer ≤ 0)
    (hmode : validMode m = false)
    (hread : readMatrices container transpose names ⟨0, [], []⟩ = .ok s)
    (hne : s.matrices.isEmpty = false) :
    convert_matlab svd fs container filename (some outStem) (some names)
      (some ul) (some lr) (some mer) clip transpose (some m) absolute
      include_average overwrite
      = ⟨.error (PyErr.valueError m), fs, [], [], s.logs⟩ := by
  obtain ⟨mat0, rest, hmats⟩ : ∃ a l, s.matrices = a :: l := by
    cases hml : s.matrices with
    | nil => rw [hml] at hne; simp at hne
    | cons a l => exact ⟨a, l, rfl⟩
  have hstep : transformStep svd clip absolute (some m) mat0
      = .error (PyErr.valueError m) := by
    simp only [transformStep, normOf_none svd m _ hmode]
  simp only [convert_matlab, Option.getD_some, hread, hmats, List.isEmpty_cons,
    Bool.false_eq_true, if_false, convertLoop, hstep]
  rw [if_neg (by simp [hf]), if_neg hx, if_neg hy, if_neg hm]

/-- Witness for `C7_amended`: a concrete run with mode `bogus` over one
extracted matrix raises `ValueError` and writes nothing. -/
theorem C7_amended_witness :
    ("data.mat" ∈ (["data.mat"] : List String)) ∧ validMode ("bogus") = false ∧
    convert_matlab (fun _ => [1]) (["data.mat"])
        ([("m", PyObj.nd3 ⟨1, 1, 1, fun _ _ _ => (0:ℝ)⟩)]) ("data.mat") (some ("out"))
        (some (["m"])) (some (0, 1)) (some (1, 0)) (some 1) none false (some ("bogus"))
        false false false
      = ⟨.error (PyErr.valueError ("bogus")), ["data.mat"], [], [], []⟩ := by
  refine ⟨by simp, by decide, ?_⟩
  exact C7_amended (fun _ => [1]) (["data.mat"])
    ([("m", PyObj.nd3 ⟨1, 1, 1, fun _ _ _ => (0:ℝ)⟩)]) ("data.mat") ("out") (["m"])
    (0, 1) (1, 0) 1 none false ("bogus") false false false
    ⟨0, [sliceFirst ⟨1, 1, 1, fun _ _ _ => (0:ℝ)⟩ 0], []⟩
    (by simp) (by norm_num) (by norm_num) (by norm_num) (by decide) rfl rfl

/-- Claim C8: the escape radius estimate equals
`2 * sqrt(n) / min(singular_values)^2`; for a singular matrix (smallest
singular value zero) the estimate is infinite, the infinite value is
accepted and serialized as such with success status when no ceiling is
configured, and a configured finite positive ceiling is used instead. -/
theorem C8_escape_radius (svd : Mat → List ℝ) (mat : Mat) (fs : List String)
    (out : String) (ul lr : ℝ × ℝ)
    (hn : 1 ≤ mat.rows) (hs : npMin (svd mat) = 0) (hout : out ∉ fs) :
    estimate_escape_radius svd mat
      = ENNReal.ofReal (2 * Real.sqrt mat.rows)
        / ENNReal.ofReal (npMin (svd mat) ^ 2) ∧
    estimate_escape_radius svd mat = ⊤ ∧
    (dump svd fs out mat ul lr none false).status = 0 ∧
    (dump svd fs out mat ul lr none false).writes = [(out, dumpRecord mat ⊤ ul lr)] ∧
    ∀ c : ℝ, 0 < c →
      (dump svd fs out mat ul lr (some c) false).writes
        = [(out, dumpRecord mat (ENNReal.ofReal c) ul lr)] := by
  have hpos : 0 < 2 * Real.sqrt mat.rows := by
    have h0 : (0:ℝ) < mat.rows := by
      exact_mod_cast Nat.lt_of_lt_of_le Nat.zero_lt_one hn
    positivity
  have htop : estimate_escape_radius svd mat = ⊤ := by
    rw [estimate_escape_radius, hs]
    have h2 : ((0:ℝ) ^ 2) = 0 := by norm_num
    rw [h2, ENNReal.ofReal_zero, ENNReal.div_zero ((ENNReal.ofReal_pos.mpr hpos).ne')]
  refine ⟨rfl, htop, ?_, ?_, ?_⟩
  · simp [dump, hout]
  · simp [dump, hout, htop]
  · intro c hc
    simp [dump, hout, htop]

/-- Witness for `C8_escape_radius`: a 1-by-1 matrix whose collaborator
spectrum is `[0]` has an infinite escape radius estimate. -/
theorem C8_escape_radius_witness :
    1 ≤ (⟨1, 1, fun _ _ => (0:ℝ)⟩ : Mat).rows ∧
    npMin ((fun _ => [(0:ℝ)]) (⟨1, 1, fun _ _ => (0:ℝ)⟩ : Mat)) = 0 ∧
    estimate_escape_radius (fun _ => [(0:ℝ)]) ⟨1, 1, fun _ _ => (0:ℝ)⟩ = ⊤ :=
  ⟨le_refl 1, rfl,
    (C8_escape_radius (fun _ => [(0:ℝ)]) ⟨1, 1, fun _ _ => (0:ℝ)⟩ [] ("o")
      (0, 0) (0, 0) (le_refl 1) rfl (by simp)).2.1⟩

/-- Claim C9, counterexample: a run with one rejected variable name and one
successful write returns overall status 1 while the bitwise or of the
per-record write statuses is 0 — the overall status also folds in the
extraction status, refuting the claim as stated. -/
theorem C9_counterexample :
    (convert_matlab (fun _ => [1]) (["data.mat"])
        ([("bad", PyObj.notArray ("dict")), ("m", PyObj.nd3 ⟨1, 1, 1, fun _ _ _ => (0:ℝ)⟩)])
        ("data.mat") (some ("out")) (some (["bad", "m"])) (some (0, 1)) (some (1, 0))
        (some 1) none false none false false false).outcome = .ok 1 ∧
    orList ((convert_matlab (fun _ => [1]) (["data.mat"])
        ([("bad", PyObj.notArray ("dict")), ("m", PyObj.nd3 ⟨1, 1, 1, fun _ _ _ => (0:ℝ)⟩)])
        ("data.mat") (some ("out")) (some (["bad", "m"])) (some (0, 1)) (some (1, 0))
        (some 1) none false none false false false).statuses) = 0 := by
  constructor <;>
    · norm_num [convert_matlab, readMatrices, readNd3Slices]
      simp +decide [convertLoop, transformStep, clipStep, absStep, dump, zeroPad,
        orList, List.lookup, List.range_succ]

/-- Claim C9 (amended): a write whose target exists without overwrite
permission gets status 1 from the serializer, which leaves the filesystem
untouched and writes no record; the batch continues — one status per matrix
(plus one for the averaged record when requested) — and the overall return
status is the bitwise or of the extraction status and all per-record write
statuses. -/
theorem C9_amended (svd : Mat → List ℝ) (fs : List String) (container : Container)
    (filename outStem : String) (names : List String) (ul lr : ℝ × ℝ) (mer : ℝ)
    (clip : Option (ℝ × ℝ)) (transpose : Bool) (normalize : Option String)
    (absolute include_average : Bool) (s : ReadState)
    (hf : filename ∈ fs) (hx : ¬ ul.1 > lr.1) (hy : ¬ ul.2 < lr.2) (hm : ¬ mer ≤ 0)
    (hmode : normalize = none ∨ ∃ m, normalize = some m ∧ validMode m = true)
    (hread : readMatrices container transpose names ⟨0, [], []⟩ = .ok s)
    (hne : s.matrices.isEmpty = false) :
    let run := convert_matlab svd fs container filename (some outStem) (some names)
      (some ul) (some lr) (some mer) clip transpose normalize absolute
      include_average false
    (∀ fs' out mat₁ merc, out ∈ fs' →
      dump svd fs' out mat₁ ul lr merc false = ⟨1, fs', [], [LogMsg.error]⟩) ∧
    run.statuses.length = s.matrices.length + (if include_average then 1 else 0) ∧
    run.outcome = .ok (s.ret ||| orList run.statuses) := by
  intro run
  refine ⟨fun fs' out mat₁ merc hmem => by simp [dump, hmem], ?_⟩
  obtain ⟨acc', new, hloop, hst, hlen, hret⟩ :=
    convertLoop_ok svd clip absolute normalize ul lr mer false outStem
      ((toString s.matrices.length).length) hmode s.matrices 0
      ⟨s.ret, fs, [], [], s.logs, none⟩
  have hrun : run = (if include_average then
      ⟨.ok (acc'.ret |||
          (dump svd acc'.fs (outStem ++ "-avg.json")
            ((acc'.matAvg.getD matZero).divScalar (s.matrices.length : ℝ)) ul lr
            (some mer) false).status),
        (dump svd acc'.fs (outStem ++ "-avg.json")
            ((acc'.matAvg.getD matZero).divScalar (s.matrices.length : ℝ)) ul lr
            (some mer) false).fs,
        acc'.writes ++ (dump svd acc'.fs (outStem ++ "-avg.json")
            ((acc'.matAvg.getD matZero).divScalar (s.matrices.length : ℝ)) ul lr
            (some mer) false).writes,
        acc'.statuses ++ [(dump svd acc'.fs (outStem ++ "-avg.json")
            ((acc'.matAvg.getD matZero).divScalar (s.matrices.length : ℝ)) ul lr
            (some mer) false).status],
        acc'.logs ++ (dump svd acc'.fs (outStem ++ "-avg.json")
            ((acc'.matAvg.getD matZero).divScalar (s.matrices.length : ℝ)) ul lr
            (some mer) false).logs⟩
    else ⟨.ok acc'.ret, acc'.fs, acc'.writes, acc'.statuses, acc'.logs⟩) := by
    show convert_matlab _ _ _ _ _ _ _ _ _ _ _ _ _ _ _ = _
    simp only [convert_matlab, Option.getD_some, hread, hne, Bool.false_eq_true,
      if_false, hloop]
    rw [if_neg (by simp [hf]), if_neg hx, if_neg hy, if_neg hm]
  rw [hrun]
  have h0 : orList ([] : List ℕ) = 0 := rfl
  cases include_average with
  | false =>
      simp only [Bool.false_eq_true, if_false]
      refine ⟨?_, ?_⟩
      · simp [hst, hlen]
      · rw [hret, hst]
        simp
  | true =>
      simp only [if_true]
      refine ⟨?_, ?_⟩
      · simp [hst, hlen]
      · rw [hst, hret]
        simp [orList_append, orList_cons, h0, Nat.lor_assoc]

/-- Witness for `C9_amended`: a two-matrix run whose first target file
already exists; the conclusion instantiates with the extraction state of the
concrete container. -/
theorem C9_amended_witness :
    ("data.mat" ∈ (["data.mat", "out-0.json"] : List String)) ∧
    ((convert_matlab (fun _ => [1]) (["data.mat", "out-0.json"])
        ([("m", PyObj.nd3 ⟨2, 1, 1, fun _ _ _ => (0:ℝ)⟩)]) ("data.mat") (some ("out"))
        (some (["m"])) (some (0, 1)) (some (1, 0)) (some 1) none false none false
        false false).statuses.length = 2) ∧
    ((convert_matlab (fun _ => [1]) (["data.mat", "out-0.json"])
        ([("m", PyObj.nd3 ⟨2, 1, 1, fun _ _ _ => (0:ℝ)⟩)]) ("data.mat") (some ("out"))
        (some (["m"])) (some (0, 1)) (some (1, 0)) (some 1) none false none false
        false false).outcome
      = .ok (0 ||| orList ((convert_matlab (fun _ => [1]) (["data.mat", "out-0.json"])
        ([("m", PyObj.nd3 ⟨2, 1, 1, fun _ _ _ => (0:ℝ)⟩)]) ("data.mat") (some ("out"))
        (some (["m"])) (some (0, 1)) (some (1, 0)) (some 1) none false none false
        false false).statuses))) := by
  have h := C9_amended (fun _ => [1]) (["data.mat", "out-0.json"])
    ([("m", PyObj.nd3 ⟨2, 1, 1, fun _ _ _ => (0:ℝ)⟩)]) ("data.mat") ("out") (["m"])
    (0, 1) (1, 0) 1 none false none false false
    ⟨0, [sliceFirst ⟨2, 1, 1, fun _ _ _ => (0:ℝ)⟩ 0,
         sliceFirst ⟨2, 1, 1, fun _ _ _ => (0:ℝ)⟩ 1], []⟩
    (by simp) (by norm_num) (by norm_num) (by norm_num) (Or.inl rfl) rfl rfl
  exact ⟨by simp, h.2.1, h.2.2⟩

/-- Claim C10: with an existing input file, a valid bounding box, a positive
configured ceiling and an empty (or omitted) variable-name list, the run
writes no output file, logs exactly one warning and returns 0 — the status
the interface reserves for full success. -/
theorem C10_empty_names (svd : Mat → List ℝ) (fs : List String) (container : Container)
    (filename : String) (outfile : Option String) (names : Option (List String))
    (ul lr : ℝ × ℝ) (mer : ℝ) (clip : Option (ℝ × ℝ)) (transpose : Bool)
    (normalize : Option String) (absolute include_average overwrite : Bool)
    (hf : filename ∈ fs) (hx : ¬ ul.1 > lr.1) (hy : ¬ ul.2 < lr.2) (hm : ¬ mer ≤ 0)
    (hnames : names = none ∨ names = some []) :
    convert_matlab svd fs container filename outfile names (some ul) (some lr)
      (some mer) clip transpose normalize absolute include_average overwrite
      = ⟨.ok 0, fs, [], [], [LogMsg.warning]⟩ := by
  have hn : names.getD [] = [] := by rcases hnames with h | h <;> subst h <;> rfl
  simp only [convert_matlab, Option.getD_some, hn, readMatrices, List.isEmpty_nil,
    if_true, List.nil_append]
  rw [if_neg (by simp [hf]), if_neg hx, if_neg hy, if_neg hm]

/-- Witness for `C10_empty_names`: a concrete run with an omitted name list
returns 0 with only a warning and no writes. -/
theorem C10_empty_names_witness :
    ("data.mat" ∈ (["data.mat"] : List String)) ∧ ¬ (1:ℝ) ≤ 0 ∧
    convert_matlab (fun _ => [1]) (["data.mat"]) ([]) ("data.mat") (some ("out"))
        none (some (0, 1)) (some (1, 0)) (some 1) none false none false false false
      = ⟨.ok 0, ["data.mat"], [], [], [LogMsg.warning]⟩ := by
  refine ⟨by simp, by norm_num, ?_⟩
  exact C10_empty_names (fun _ => [1]) (["data.mat"]) ([]) ("data.mat") (some ("out"))
    none (0, 1) (1, 0) 1 none false none false false false
    (by simp) (by norm_num) (by norm_num) (by norm_num) (Or.inl rfl)
